import Mathlib

/-!
Verification of the extraction-validation pipeline of the French tax
assistant (src/app1.py) against its natural-language specification.

The embedding below translates the pipeline functions of the source into
Lean definitions:

* JSON values produced by `json.loads` are modelled by the inductive
  type `Json`; a candidate income entry (a Python dict) is an
  association list `Entry` with most-recent-binding-wins lookup
  (`eget`) and dict assignment modelled as a shadowing cons (`eset`).
* Python floats are modelled by exact rationals `ℚ`.  Python's
  built-in `round(x, 2)` rounds half to even (banker's rounding); it is
  modelled by `round2`, which is exact round-half-to-even on `ℚ` and
  agrees with the float behaviour whenever the values involved are
  exactly representable.
* Python exceptions escaping a function are modelled with `Option`
  (`none` = an uncaught `TypeError`/`ValueError` aborts the run).
* The mutable global `EXCHANGE_RATES` (user-editable before a run) is
  threaded as an explicit `rates` parameter; `exchangeRates` below is
  its default value from the source.
* Warnings are modelled as an inductive type with one constructor per
  f-string template in the source, carrying the interpolated data.
-/

/-- A JSON value as returned by `json.loads` (and as stored in a parsed
income entry).  Booleans are kept separate from numbers but behave
numerically where Python would coerce them. -/
inductive Json where
  | null : Json
  | b : Bool → Json
  | n : ℚ → Json
  | s : String → Json
  | arr : List Json → Json
  | obj : List (String × Json) → Json

/-- A candidate income entry: a Python dict modelled as an association
list.  `eset` conses a new binding, `eget` returns the most recent one. -/
def Entry : Type := List (String × Json)

/-- First-match association-list lookup (dict read). -/
def alookup {α : Type} : List (String × α) → String → Option α
  | [], _ => none
  | (k, v) :: t, key => if k = key then some v else alookup t key

/-- Dict read `entry[k]` / membership `k in entry`. -/
def eget (e : Entry) (k : String) : Option Json := alookup e k

/-- Dict assignment `entry[k] = v`, modelled as a shadowing cons (the
most recent binding wins in `eget`). -/
def eset (e : Entry) (k : String) (v : Json) : Entry := (k, v) :: e

/-- Python truthiness of a JSON value (`if x:`). -/
def jsonTruthy : Json → Bool
  | .null => false
  | .b x => x
  | .n q => q ≠ 0
  | .s t => t ≠ ""
  | .arr xs => !xs.isEmpty
  | .obj kvs => !kvs.isEmpty

/-- Python `x == ""` for a JSON value (only a string can equal `""`). -/
def eqEmptyStr : Json → Bool
  | .s t => t = ""
  | _ => false

/-- Numeric reading of a JSON value for arithmetic (`x * rate`,
`float(x)`): numbers are themselves, booleans are 0/1 as in Python;
anything else raises a `TypeError`/`ValueError`, modelled as `none`. -/
def jnum? : Json → Option ℚ
  | .n q => some q
  | .b x => some (if x then 1 else 0)
  | _ => none

/-- Rendering used when a JSON value is interpolated into an f-string
(`str(x)`).  Strings render as themselves, which is the only case the
claims exercise; the remaining renderings are abbreviated. -/
def jsonToStr : Json → String
  | .s t => t
  | .b true => "True"
  | .b false => "False"
  | .null => "None"
  | .n q => toString q
  | .arr _ => "<list>"
  | .obj _ => "<dict>"

/-- `entry.get('Description', 'Unknown')` as rendered into warnings. -/
def descOf (e : Entry) : String := jsonToStr ((eget e "Description").getD (.s "Unknown"))

/-- One warning per f-string template of `validate_and_clean_data`,
carrying the interpolated data:
`missingFields` = line 324, `badAmount` = line 340,
`unknownCurrency` = line 351, `badTaxable` = line 364,
`unknownCode` = line 374, `unknownForm` = line 376. -/
inductive Warning where
  | missingFields (desc : String) (missing : List String)
  | badAmount (amount : String) (desc : String)
  | unknownCurrency (currency : String) (desc : String)
  | badTaxable (field : String) (value : String) (desc : String)
  | unknownCode (code : String) (form : String) (desc : String)
  | unknownForm (form : String) (desc : String)
deriving DecidableEq, Repr

/-- ASCII fragment of Python `str.upper` applied to one character. -/
def pyUpperChar (c : Char) : Char :=
  if 97 ≤ c.toNat ∧ c.toNat ≤ 122 then Char.ofNat (c.toNat - 32) else c

/-- Python `str.upper` (ASCII fragment; the source only uppercases
currency and tax codes, which are ASCII). -/
def pyUpper (s : String) : String := ⟨s.data.map pyUpperChar⟩

/-- ASCII whitespace, the characters stripped by Python `str.strip`
(ASCII fragment). -/
def isSpaceChar (c : Char) : Bool :=
  c = ' ' ∨ c = '\t' ∨ c = '\n' ∨ c = '\r' ∨ c = '\x0b' ∨ c = '\x0c'

/-- Python `str.strip`: remove whitespace from both ends. -/
def pyStrip (s : String) : String :=
  ⟨(((s.data.dropWhile isSpaceChar).reverse.dropWhile isSpaceChar).reverse)⟩

/-- Keep characters `[0-9A-Z]`, the complement of the class stripped by
`re.sub(r"[^0-9A-Z]", "", ·)` in `normalize_code` (line 282). -/
def keepChar (c : Char) : Bool := (48 ≤ c.toNat ∧ c.toNat ≤ 57) ∨ (65 ≤ c.toNat ∧ c.toNat ≤ 90)

/-- `normalize_code` (lines 280-282): uppercase, then strip every
character that is not a digit or a capital letter. -/
def normalize_code (s : String) : String := ⟨(s.data.map pyUpperChar).filter keepChar⟩

/-- Round a rational to the nearest integer, ties to even: the rounding
performed by Python's built-in `round` (on values exactly representable
in binary, where no floating-point perturbation occurs). -/
def rhe (q : ℚ) : ℤ :=
  if q - ⌊q⌋ < 1/2 then ⌊q⌋
  else if q - ⌊q⌋ > 1/2 then ⌊q⌋ + 1
  else if ⌊q⌋ % 2 = 0 then ⌊q⌋ else ⌊q⌋ + 1

/-- Python `round(x, 2)` (banker's rounding at two decimals). -/
def round2 (q : ℚ) : ℚ := (rhe (q * 100) : ℚ) / 100

/-- ASCII decimal digit test. -/
def isDigitChar (c : Char) : Bool := 48 ≤ c.toNat ∧ c.toNat ≤ 57

/-- Value of a digit string, most significant first. -/
def digitsToNat (l : List Char) : Nat := l.foldl (fun a c => a * 10 + (c.toNat - 48)) 0

/-- Unsigned decimal mantissa `digits[.digits]` with at least one digit
(the core of Python `float(...)` parsing). -/
def parseUnsignedDec (l : List Char) : Option ℚ :=
  let ip := l.takeWhile isDigitChar
  let rest := l.dropWhile isDigitChar
  match rest with
  | [] => if ip.isEmpty then none else some (digitsToNat ip : ℚ)
  | '.' :: fp =>
    if fp.all isDigitChar ∧ (¬ ip.isEmpty ∨ ¬ fp.isEmpty) then
      some ((digitsToNat ip : ℚ) + (digitsToNat fp : ℚ) / (10 ^ fp.length))
    else none
  | _ => none

/-- Python `float(s)` on standard decimal notation
`[sign] digits [. digits] [e [sign] digits]`; `none` models
`ValueError`.  (The exotic forms `inf`/`nan`/embedded underscores are
not modelled; no pipeline input exercises them.) -/
def pyFloat (s : String) : Option ℚ :=
  let (sign, l1) : ℚ × List Char :=
    match s.data with
    | '+' :: t => (1, t)
    | '-' :: t => (-1, t)
    | t => (1, t)
  let mant := l1.takeWhile (fun c => c ≠ 'e' ∧ c ≠ 'E')
  let rest := l1.dropWhile (fun c => c ≠ 'e' ∧ c ≠ 'E')
  match rest with
  | [] => (parseUnsignedDec mant).map (fun m => sign * m)
  | _ :: ex =>
    let (esign, ed) : ℤ × List Char :=
      match ex with
      | '+' :: t => (1, t)
      | '-' :: t => (-1, t)
      | t => (1, t)
    if ¬ ed.isEmpty ∧ ed.all isDigitChar then
      (parseUnsignedDec mant).map (fun m => sign * m * (10 : ℚ) ^ (esign * (digitsToNat ed : ℤ)))
    else none

/-- `s.replace(",", ".").replace(" ", "")` (lines 338/362/442). -/
def stripCommaSpace (s : String) : String :=
  ⟨(s.data.map (fun c => if c = ',' then '.' else c)).filter (fun c => c ≠ ' ')⟩

/-- `EXCHANGE_RATES` (lines 31-37), the default currency table; the
table is user-editable before a run, so the pipeline functions below
take the table as an explicit parameter. -/
def exchangeRates : List (String × ℚ) :=
  [("GBP", 11812/10000), ("USD", 9204/10000), ("CHF", 10418/10000),
   ("CAD", 6812/10000), ("EUR", 1)]

/-- `TAX_CODES` (lines 49-104): the reference taxonomy
form → code → description. -/
def taxCodes : List (String × List (String × String)) :=
  [("2042",
    [("1AJ", "Salaries - Declarant 1"),
     ("1BJ", "Salaries - Declarant 2"),
     ("1AP", "Pensions, Retirement - Declarant 1"),
     ("1BP", "Pensions, Retirement - Declarant 2"),
     ("2TR", "Interest income subject to flat tax (PFU)"),
     ("2TS", "Interest from regulated savings accounts (Livret A, etc.)"),
     ("2BH", "French bank interest - Declarant 1"),
     ("2CH", "French bank interest - Declarant 2"),
     ("2DC", "Dividends subject to progressive tax"),
     ("2EE", "Capital gains on securities"),
     ("5HQ", "Micro-entrepreneur/Auto-entrepreneur income"),
     ("5KO", "Miscellaneous income - Declarant 1"),
     ("5LO", "Miscellaneous income - Declarant 2"),
     ("5TE", "Micro-BIC income (Chambre d'hôte/gites)"),
     ("7DB", "Energy production credits (solar panels, etc.)"),
     ("7DQ", "Energy equipment installations (tax credit)")]),
   ("2044",
    [("4BA", "Gross rental income"),
     ("4BB", "Property tax paid"),
     ("4BC", "Deductible interest on loans"),
     ("4BH", "Property expenses"),
     ("4BK", "Property management fees"),
     ("4BL", "Insurance premiums")]),
   ("2047",
    [("1AF", "Foreign pensions - Declarant 1"),
     ("1BF", "Foreign pensions - Declarant 2"),
     ("1AG", "Government/Civil Service pensions - Declarant 1"),
     ("1BG", "Government/Civil Service pensions - Declarant 2"),
     ("2AB", "Foreign dividends"),
     ("2BG", "Foreign interest income - Declarant 1"),
     ("2CG", "Foreign interest income - Declarant 2"),
     ("3VG", "Foreign capital gains"),
     ("3VH", "Foreign capital gains exempt but used for rate calculation")]),
   ("3916",
    [("8UU", "Foreign bank account - Country code"),
     ("8TK", "Foreign bank account - Account number"),
     ("8QS", "Foreign bank account - Name of institution"),
     ("8RT", "Foreign bank account - Full address"),
     ("8QU", "Foreign bank account - Account type (current/savings)")]),
   ("2086",
    [("AK", "Professional expenses - Declarant 1"),
     ("BK", "Professional expenses - Declarant 2"),
     ("WW", "Home-to-work distance (km)")])]

/-- Lookup of a (form, code) pair in the reference taxonomy. -/
def lookupTaxCode (form code : String) : Option String :=
  (alookup taxCodes form).bind (fun codes => alookup codes code)

/-- The five mandatory fields (line 320). -/
def requiredFields : List String :=
  ["Description", "Form", "Code", "Source Currency", "Amount (Source)"]

/-!  ## Validator/Normalizer (`validate_and_clean_data`, lines 310-391)

The per-entry body of the loop is split into one definition per source
step; `processEntry` chains them in source order.  An uncaught Python
exception (e.g. `.strip()` on a non-string) is modelled as `none`. -/

/-- Lines 328-329 and 332: `entry["Form"] = entry["Form"].strip()`,
`entry["Code"] = normalize_code(entry["Code"])`, and
`source_currency = entry["Source Currency"].upper()`.  Returns the
updated entry together with the stripped form, normalized code and
uppercased currency; `none` models the `AttributeError` raised when one
of the three values is not a string. -/
def stepNormalize (e : Entry) : Option (Entry × String × String × String) := do
  let f ← match eget e "Form" with | some (.s t) => some t | _ => none
  let e1 := eset e "Form" (.s (pyStrip f))
  let c ← match eget e1 "Code" with | some (.s t) => some t | _ => none
  let e2 := eset e1 "Code" (.s (normalize_code c))
  let cu ← match eget e2 "Source Currency" with | some (.s t) => some t | _ => none
  pure (e2, pyStrip f, normalize_code c, pyUpper cu)

/-- Lines 333-343: coerce `Amount (Source)` to a number when it is a
string (tolerating comma-as-decimal and stray spaces); a failed parse
defaults the amount to 0 with a warning.  Returns the updated entry,
the resulting `source_amount` value, and the warnings. -/
def stepAmount (e : Entry) : Entry × Json × List Warning :=
  match (eget e "Amount (Source)").getD (.n 0) with
  | .s t =>
    match pyFloat (stripCommaSpace t) with
    | some q => (eset e "Amount (Source)" (.n q), .n q, [])
    | none => (eset e "Amount (Source)" (.n 0), .n 0, [Warning.badAmount t (descOf e)])
  | v => (eset e "Amount (Source)" v, v, [])

/-- Lines 345-354: populate `Amount (€)`.  Identity when the currency
is EUR; `round(source_amount * rate, 2)` when `EXCHANGE_RATES.get`
yields a truthy (non-zero) rate; otherwise 1:1 with an
unknown-currency warning (`if exchange_rate:` is false both for a
missing currency and for a rate of exactly 0).  `none` models the
`TypeError` of multiplying a non-numeric amount by a float. -/
def stepEur (rates : List (String × ℚ)) (cur : String) (amt : Json) (e : Entry) :
    Option (Entry × List Warning) :=
  if cur ≠ "EUR" then
    match alookup rates cur with
    | some r =>
      if r ≠ 0 then
        match jnum? amt with
        | some q => some (eset e "Amount (€)" (.n (round2 (q * r))), [])
        | none => none
      else some (eset e "Amount (€)" amt, [Warning.unknownCurrency cur (descOf e)])
    | none => some (eset e "Amount (€)" amt, [Warning.unknownCurrency cur (descOf e)])
  else some (eset e "Amount (€)" amt, [])

/-- Lines 356-365, for one of the two taxable-amount fields: absent or
`== ""` becomes `""`; a string is coerced with the tolerant rule,
parse failure leaving `""` with a warning; any other value is kept. -/
def stepTaxable (field : String) (e : Entry) : Entry × List Warning :=
  match eget e field with
  | none => (eset e field (.s ""), [])
  | some v =>
    if eqEmptyStr v then (eset e field (.s ""), [])
    else
      match v with
      | .s t =>
        match pyFloat (stripCommaSpace t) with
        | some q => (eset e field (.n q), [])
        | none => (eset e field (.s ""), [Warning.badTaxable field t (descOf e)])
      | _ => (e, [])

/-- Lines 367-377: classify validity against the reference taxonomy.
A known (form, code) pair gets `Valid Code = True` and the matched
description; otherwise `Valid Code = False`, an empty description, and
one warning naming the unmatched code (or the unmatched form when the
form itself is unknown). -/
def stepClassify (form code : String) (e : Entry) : Entry × List Warning :=
  match alookup taxCodes form with
  | some codes =>
    match alookup codes code with
    | some d => (eset (eset e "Valid Code" (.b true)) "Code Description" (.s d), [])
    | none => (eset (eset e "Valid Code" (.b false)) "Code Description" (.s ""),
               [Warning.unknownCode code form (descOf e)])
  | none => (eset (eset e "Valid Code" (.b false)) "Code Description" (.s ""),
             [Warning.unknownForm form (descOf e)])

/-- The fixed note appended by the 5TE rule (line 386). -/
def steNote : String := " Micro-BIC regime, 71% abatement applies."

/-- Lines 379-386: the special rule for form "2042", code "5TE".  When
the (already coerced) France-taxable amount is truthy, compute the 71%
abatement amount and the 29% post-abatement amount (both rounded to two
decimals) and append the fixed note.  `none` models the exception of
`float(·)` on a non-coercible value or of concatenating to non-string
notes (neither is reachable from parsed JSON that survived the earlier
steps). -/
def stepSTE (form code : String) (e : Entry) : Option Entry :=
  if form = "2042" ∧ code = "5TE" then
    match eget e "Taxable in France (€)" with
    | none => some e
    | some v =>
      if jsonTruthy v then
        match jnum? v with
        | none => none
        | some q =>
          match (eget e "Notes").getD (.s "") with
          | .s notes =>
            some (eset (eset (eset e
                    "Abatement Amount" (.n (round2 (q * (71/100)))))
                    "Taxable in France (€) After Abatement" (.n (round2 (q * (29/100)))))
                    "Notes" (.s (notes ++ steNote)))
          | _ => none
      else some e
  else some e

/-- The loop body of `validate_and_clean_data` (lines 318-389) for one
candidate entry: `some (none, ws)` = entry dropped for missing required
fields with its single warning, `some (some e', ws)` = entry retained
(possibly flagged) with its warnings, `none` = uncaught exception. -/
def processEntry (rates : List (String × ℚ)) (e : Entry) :
    Option (Option Entry × List Warning) :=
  if requiredFields.all (fun f => (eget e f).isSome) then
    match stepNormalize e with
    | none => none
    | some (e2, form, code, cur) =>
      let (e3, amt, w1) := stepAmount e2
      match stepEur rates cur amt e3 with
      | none => none
      | some (e4, w2) =>
        let (e5a, w3a) := stepTaxable "Taxable in France (€)" e4
        let (e5, w3b) := stepTaxable "Taxable in Source Country (€)" e5a
        let (e6, w4) := stepClassify form code e5
        match stepSTE form code e6 with
        | none => none
        | some e7 => some (some e7, w1 ++ w2 ++ w3a ++ w3b ++ w4)
  else
    some (none, [Warning.missingFields (descOf e)
                   (requiredFields.filter (fun f => (eget e f).isNone))])

/-- The loop of `validate_and_clean_data`, accumulating validated
entries and warnings in order; an exception aborts the whole call. -/
def vacGo (rates : List (String × ℚ)) : List Entry → Option (List Entry × List Warning)
  | [] => some ([], [])
  | e :: rest => do
    let (oe, ws) ← processEntry rates e
    let (ves, wss) ← vacGo rates rest
    pure (oe.toList ++ ves, ws ++ wss)

/-- `validate_and_clean_data` (lines 310-391): empty (or falsy) input
short-circuits to `([], [])` (line 312), otherwise the per-entry loop
runs. -/
def validate_and_clean_data (rates : List (String × ℚ)) (parsed : List Entry) :
    Option (List Entry × List Warning) :=
  if parsed.isEmpty then some ([], []) else vacGo rates parsed

/-!  ## Output Parser (`safe_parse_json`, lines 284-308) and its caller

The two regex extraction strategies (fenced ```json block, bracketed
array search) are modelled as opaque functions `String → Option String`
— the claims under verification do not depend on their internals, only
on which strategy is consulted and on the fallback to the uncleaned
text when a strategy finds no match (`if match:`).  `loads` models
`json.loads`; `none` is a raised `JSONDecodeError`, which the
surrounding `try`/`except` turns into a `None` result. -/

/-- Substring test, `needle in hay`. -/
def strContains (hay needle : String) : Bool :=
  hay.data.tails.any (fun t => needle.data.isPrefixOf t)

/-- Lines 290-301: choose the cleaning strategy.  A response containing
a fenced ```json block uses the fenced extraction; otherwise a response
not starting with `[` uses the bracket-pattern search; otherwise the
stripped response is parsed directly.  A strategy that finds no match
leaves the stripped text unchanged. -/
def cleanOutput (ef ea : String → Option String) (s : String) : String :=
  let c0 := pyStrip s
  if strContains c0 "```json" then (ef c0).getD c0
  else if ¬ c0.startsWith "[" then (ea c0).getD c0
  else c0

/-- `safe_parse_json` (lines 284-308): a falsy (empty) or
whitespace-only response returns the empty list `[]` (line 304); a
non-blank response is cleaned and handed to `json.loads`, whose failure
is caught and converted to `None` (line 308), modelled as `none`. -/
def safe_parse_json (ef ea : String → Option String) (loads : String → Option Json)
    (s : String) : Option Json :=
  if s ≠ "" ∧ pyStrip s ≠ "" then loads (cleanOutput ef ea s) else some (.arr [])

/-- Lines 685-689 of `main`: `parsed = safe_parse_json(...)` followed by
`if parsed:` — validation and report building run only when the parse
result is truthy; a `None` result AND an empty list both abort the
remainder of the run. -/
def mainProceeds (parsed : Option Json) : Bool :=
  match parsed with
  | none => false
  | some v => jsonTruthy v

/-!  ## Report Builder (`create_json_output`, lines 421-453)

Line 424 returns `"[]"` for an empty frame.  For a non-empty frame the
filter on lines 427-428 is

    df[df['Taxable in France (€)'].astype(str).str.strip() != '' |
       df['Taxable in Source Country (€)'].astype(str).str.strip() != '']

in which `|` binds tighter than `!=`, so the expression parses as the
chained comparison  `A != ('' | B) != ''`: evaluating `'' | B` applies
`str.__or__` elementwise (a `TypeError`), and even an elementwise `|`
that succeeded would feed the chain's implicit `and`, which calls
`bool(Series)` (a `ValueError`).  Either way the function raises for
every non-empty frame and the row loop below it is unreachable; the
raise is modelled as `Except.error`. -/

/-- `create_json_output`: `"[]"` on an empty validated set, an uncaught
exception (from the unparenthesized filter) otherwise. -/
def create_json_output (rows : List Entry) : Except String String :=
  if rows.length = 0 then .ok "[]"
  else .error "TypeError: unsupported operand type(s) for |: str and str"

/-!  ## Text Extractor, `.txt` branch (line 166)

`file.getvalue().decode("utf-8", errors="ignore")` — strict UTF-8
decoding except that each maximal invalid subpart is silently skipped
(CPython's `ignore` error handler), never raised and never replaced.
Bytes and decoded text are modelled as lists of naturals (byte values,
Unicode code points). -/

/-- Continuation byte test `0x80-0xBF`. -/
def contByte (b : Nat) : Bool := 128 ≤ b ∧ b ≤ 191

/-- Range of the first continuation byte for a 3- or 4-byte lead, which
excludes overlong encodings (after 0xE0, 0xF0) and surrogates/values
above U+10FFFF (after 0xED, 0xF4). -/
def firstContLo (lead : Nat) : Nat := if lead = 224 then 160 else if lead = 240 then 144 else 128
def firstContHi (lead : Nat) : Nat := if lead = 237 then 159 else if lead = 244 then 143 else 191

/-- First-continuation test for a given lead byte. -/
def firstCont (lead c : Nat) : Bool := firstContLo lead ≤ c ∧ c ≤ firstContHi lead

/-- One step of UTF-8 decoding with `errors="ignore"`, at a byte `b`
followed by `rest`: either decode one scalar value (consuming its
continuation bytes), or skip the maximal invalid subpart starting at
`b` and resume at the offending byte, emitting nothing (`none`).
Returns the emitted scalar (if any) and the remaining input. -/
def utf8Step (b : Nat) (rest : List Nat) : Option Nat × List Nat :=
  if b ≤ 127 then (some b, rest)
  else if 194 ≤ b ∧ b ≤ 223 then
    match rest with
    | [] => (none, [])
    | c :: r =>
      if contByte c then (some ((b - 192) * 64 + (c - 128)), r) else (none, c :: r)
  else if 224 ≤ b ∧ b ≤ 239 then
    match rest with
    | [] => (none, [])
    | c :: r =>
      if firstCont b c then
        match r with
        | [] => (none, [])
        | d :: r2 =>
          if contByte d then
            (some ((b - 224) * 4096 + (c - 128) * 64 + (d - 128)), r2)
          else (none, d :: r2)
      else (none, c :: r)
  else if 240 ≤ b ∧ b ≤ 244 then
    match rest with
    | [] => (none, [])
    | c :: r =>
      if firstCont b c then
        match r with
        | [] => (none, [])
        | d :: r2 =>
          if contByte d then
            match r2 with
            | [] => (none, [])
            | e :: r3 =>
              if contByte e then
                (some ((b - 240) * 262144 + (c - 128) * 4096 + (d - 128) * 64 + (e - 128)), r3)
              else (none, e :: r3)
          else (none, d :: r2)
      else (none, c :: r)
  else (none, rest)

/-- Fuel-indexed driver of the decoder; each step consumes at least the
lead byte, so fuel equal to the input length always suffices. -/
def utf8DecodeAux : Nat → List Nat → List Nat
  | 0, _ => []
  | _ + 1, [] => []
  | fuel + 1, b :: rest =>
    match utf8Step b rest with
    | (some cp, r) => cp :: utf8DecodeAux fuel r
    | (none, r) => utf8DecodeAux fuel r

/-- UTF-8 decoding with `errors="ignore"`: invalid subparts are
silently skipped, nothing is raised and nothing is substituted. -/
def utf8DecodeIgnore (l : List Nat) : List Nat := utf8DecodeAux l.length l

/-- The `.txt` branch of `extract_text_from_file` (line 166). -/
def extractTextTxt (bytes : List Nat) : List Nat := utf8DecodeIgnore bytes

/-- A Unicode scalar value (not a surrogate, at most U+10FFFF). -/
def validScalar (n : Nat) : Bool := n < 55296 ∨ (57344 ≤ n ∧ n ≤ 1114111)

/-- Standard UTF-8 encoding of one scalar value. -/
def utf8EncodeChar (n : Nat) : List Nat :=
  if n ≤ 127 then [n]
  else if n ≤ 2047 then [192 + n / 64, 128 + n % 64]
  else if n ≤ 65535 then [224 + n / 4096, 128 + n / 64 % 64, 128 + n % 64]
  else [240 + n / 262144, 128 + n / 4096 % 64, 128 + n / 64 % 64, 128 + n % 64]

/-- Standard UTF-8 encoding of a sequence of scalar values. -/
def utf8Encode (l : List Nat) : List Nat := l.flatMap utf8EncodeChar

/-!  ## Helper definitions for the claim statements and concrete
test entries -/

/-- Value-level form of `stepTaxable` (lines 357-365): the value held by
a taxable-amount field after coercion. -/
def coerceTaxVal : Option Json → Json
  | none => .s ""
  | some v =>
    if eqEmptyStr v then .s ""
    else
      match v with
      | .s t =>
        match pyFloat (stripCommaSpace t) with
        | some q => .n q
        | none => .s ""
      | v => v

/-- A taxable-amount field value on which the 5TE rule cannot raise:
truthy values must be numeric-coercible (rules out non-empty
lists/objects, which `float(·)` would reject). -/
def taxOkB (v : Json) : Bool := !jsonTruthy v || (jnum? v).isSome

/-- A notes field the 5TE rule can append to: absent or a string. -/
def notesOkB : Option Json → Bool
  | none => true
  | some (.s _) => true
  | some _ => false

/-- The hypotheses under which one candidate entry flows through the
whole of `validate_and_clean_data`'s loop body without raising: the
five required fields are present, the three string-typed fields are
strings, the source amount is a number (directly or after the tolerant
parse), and the France-taxable/notes fields cannot make the 5TE rule
raise. -/
structure GoodEntry (e : Entry) (f c cu : String) (a : ℚ) : Prop where
  hreq : requiredFields.all (fun fl => (eget e fl).isSome) = true
  hF : eget e "Form" = some (.s f)
  hC : eget e "Code" = some (.s c)
  hCu : eget e "Source Currency" = some (.s cu)
  hA : eget e "Amount (Source)" = some (.n a) ∨
       ∃ t, eget e "Amount (Source)" = some (.s t) ∧ pyFloat (stripCommaSpace t) = some a
  hTF : taxOkB (coerceTaxVal (eget e "Taxable in France (€)")) = true
  hN : notesOkB (eget e "Notes") = true

/-- A validated entry with a France-taxable amount of 350 (form 2042,
code 2TR), as the row loop of `create_json_output` would receive it. -/
def ce2row : Entry :=
  [("Description", .s "Bank Interest"), ("Form", .s "2042"), ("Code", .s "2TR"),
   ("Source Currency", .s "EUR"), ("Amount (Source)", .n 350), ("Amount (€)", .n 350),
   ("Taxable in France (€)", .n 350), ("Taxable in Source Country (€)", .s ""),
   ("Notes", .s "")]

/-- A concrete GBP pension entry. -/
def ce3w : Entry :=
  [("Description", .s "UK Pension"), ("Form", .s "2047"), ("Code", .s "1AG"),
   ("Source Currency", .s "GBP"), ("Amount (Source)", .n 9351)]

/-- Counterexample to C4 as stated: with a user-edited rate of 0.5 for
USD, an entry of 0.25 USD converts to exactly 0.125 EUR before
rounding; the claim's half-up rounding would give 0.13, but the code
(Python `round`, half-to-even) produces 0.12. -/
def ce4 : Entry :=
  [("Description", .s "Tie"), ("Form", .s "2042"), ("Code", .s "1AJ"),
   ("Source Currency", .s "USD"), ("Amount (Source)", .n (1/4))]

/-- A 2042/5TE entry whose France-taxable amount is the NUMBER 0 —
present and non-empty, but falsy in Python. -/
def ce5z : Entry :=
  [("Description", .s "Gite"), ("Form", .s "2042"), ("Code", .s "5TE"),
   ("Source Currency", .s "EUR"), ("Amount (Source)", .n 7387),
   ("Taxable in France (€)", .n 0)]

/-- The claim's own concrete example entry: 2042/5TE with
France-taxable 7387. -/
def ce5w : Entry :=
  [("Description", .s "Chambre dHote"), ("Form", .s "2042"), ("Code", .s "5TE"),
   ("Source Currency", .s "EUR"), ("Amount (Source)", .n 7387),
   ("Taxable in France (€)", .n 7387), ("Notes", .s "Micro-BIC")]

/-- An entry with no tax code. -/
def ce6 : Entry :=
  [("Description", .s "Mystery"), ("Form", .s "2042"),
   ("Source Currency", .s "EUR"), ("Amount (Source)", .n 100)]

/-- An entry whose code normalizes to 9ZZ, unknown in form 2042. -/
def ce8 : Entry :=
  [("Description", .s "Oddity"), ("Form", .s "2042"), ("Code", .s "9zz"),
   ("Source Currency", .s "EUR"), ("Amount (Source)", .n 200)]

/-- An entry in a currency present in the table with rate zero. -/
def ce10 : Entry :=
  [("Description", .s "Testfund"), ("Form", .s "2047"), ("Code", .s "1AF"),
   ("Source Currency", .s "xts"), ("Amount (Source)", .n 5)]

/-!  ## Basic lemmas about the dict model -/

theorem eget_eset_self (e : Entry) (k : String) (v : Json) : eget (eset e k v) k = some v := by
  simp [eget, eset, alookup]

theorem eget_eset_ne (e : Entry) (k k' : String) (v : Json) (h : k ≠ k') :
    eget (eset e k v) k' = eget e k' := by
  simp [eget, eset, alookup, h]

/-!  ## Claim C7: code normalization -/

theorem pyUpperChar_of_keep (c : Char) (h : keepChar c = true) : pyUpperChar c = c := by
  simp only [keepChar, decide_eq_true_eq] at h
  unfold pyUpperChar
  rw [if_neg]
  omega

theorem norm_aux (l : List Char) :
    ((l.filter keepChar).map pyUpperChar).filter keepChar = l.filter keepChar := by
  induction l with
  | nil => rfl
  | cons c t ih =>
    by_cases h : keepChar c = true
    · simp only [List.filter_cons, h, if_true, List.map_cons, pyUpperChar_of_keep c h, ih]
    · simp only [List.filter_cons, h]
      simpa [h] using ih

/-- C7: `normalize_code` is idempotent — normalizing twice yields the
same string as normalizing once — and it uppercases and strips every
character other than digits and capital letters, so `"1 aj!"`
normalizes to `"1AJ"`. -/
theorem c7_normalize_code_idempotent :
    (∀ s : String, normalize_code (normalize_code s) = normalize_code s) ∧
    normalize_code "1 aj!" = "1AJ" := by
  constructor
  · intro s
    show String.mk _ = String.mk _
    exact congrArg String.mk (norm_aux (s.data.map pyUpperChar))
  · rfl

/-!  ## Claim C2: the filing-feed JSON builder -/

/-- C2: for every non-empty validated entry set, `create_json_output`
raises (the unparenthesized filter on lines 427-428 evaluates
`'' | column` inside a chained comparison) instead of building the
filing feed; only the empty set produces output, namely `"[]"`. -/
theorem c2_filter_raises (rows : List Entry) (h : rows.length ≠ 0) :
    create_json_output rows =
      Except.error "TypeError: unsupported operand type(s) for |: str and str" ∧
    create_json_output [] = Except.ok "[]" := by
  refine ⟨?_, rfl⟩
  unfold create_json_output
  rw [if_neg h]

/-- Witness for C2 at a concrete one-row validated set: the claim's
promised feed entry `(2042, 2TR, 350)` is never produced because the
call raises. -/
theorem c2_filter_raises_witness :
    create_json_output [ce2row] =
      Except.error "TypeError: unsupported operand type(s) for |: str and str" :=
  (c2_filter_raises [ce2row] (by simp)).1

/-!  ## Claim C9: the `.txt` extractor -/

theorem utf8Step_len (b : Nat) (rest : List Nat) :
    (utf8Step b rest).2.length ≤ rest.length := by
  unfold utf8Step
  repeat' split
  all_goals simp_all
  all_goals omega

theorem decodeAux_fuel (fuel : Nat) : ∀ (fuel' : Nat) (l : List Nat),
    l.length ≤ fuel → l.length ≤ fuel' → utf8DecodeAux fuel l = utf8DecodeAux fuel' l := by
  induction fuel with
  | zero =>
    intro fuel' l h _
    have hl : l = [] := by cases l <;> simp_all
    subst hl
    cases fuel' <;> rfl
  | succ f ih =>
    intro fuel' l h h'
    cases l with
    | nil => cases fuel' <;> rfl
    | cons b rest =>
      cases fuel' with
      | zero => simp at h'
      | succ f' =>
        simp only [utf8DecodeAux]
        rcases hs : utf8Step b rest with ⟨o, r⟩
        have hl : r.length ≤ rest.length := by
          have := utf8Step_len b rest
          rw [hs] at this
          exact this
        simp only [List.length_cons] at h h'
        cases o with
        | none => exact ih f' r (by omega) (by omega)
        | some cp => exact congrArg (cp :: ·) (ih f' r (by omega) (by omega))

theorem utf8DecodeIgnore_cons (b : Nat) (rest : List Nat) :
    utf8DecodeIgnore (b :: rest) =
      match utf8Step b rest with
      | (some cp, r) => cp :: utf8DecodeIgnore r
      | (none, r) => utf8DecodeIgnore r := by
  show utf8DecodeAux (b :: rest).length (b :: rest) = _
  simp only [List.length_cons, utf8DecodeAux, utf8DecodeIgnore]
  rcases hs : utf8Step b rest with ⟨o, r⟩
  have hl : r.length ≤ rest.length := by
    have := utf8Step_len b rest
    rw [hs] at this
    exact this
  cases o with
  | none => exact decodeAux_fuel rest.length r.length r hl le_rfl
  | some cp => exact congrArg (cp :: ·) (decodeAux_fuel rest.length r.length r hl le_rfl)

theorem utf8Step_two (b c : Nat) (rest : List Nat)
    (hb : 194 ≤ b ∧ b ≤ 223) (hc : contByte c = true) :
    utf8Step b (c :: rest) = (some ((b - 192) * 64 + (c - 128)), rest) := by
  unfold utf8Step
  rw [if_neg (by omega), if_pos hb]
  simp only [hc, if_true]

theorem utf8Step_three (b c d : Nat) (rest : List Nat)
    (hb : 224 ≤ b ∧ b ≤ 239) (hc : firstCont b c = true) (hd : contByte d = true) :
    utf8Step b (c :: d :: rest) =
      (some ((b - 224) * 4096 + (c - 128) * 64 + (d - 128)), rest) := by
  unfold utf8Step
  rw [if_neg (by omega), if_neg (by omega), if_pos hb]
  simp only [hc, hd, if_true]

theorem utf8Step_four (b c d e : Nat) (rest : List Nat)
    (hb : 240 ≤ b ∧ b ≤ 244) (hc : firstCont b c = true)
    (hd : contByte d = true) (he : contByte e = true) :
    utf8Step b (c :: d :: e :: rest) =
      (some ((b - 240) * 262144 + (c - 128) * 4096 + (d - 128) * 64 + (e - 128)), rest) := by
  unfold utf8Step
  rw [if_neg (by omega), if_neg (by omega), if_neg (by omega), if_pos hb]
  simp only [hc, hd, he, if_true]

theorem decode_encodeChar (n : Nat) (h : validScalar n = true) (rest : List Nat) :
    utf8DecodeIgnore (utf8EncodeChar n ++ rest) = n :: utf8DecodeIgnore rest := by
  simp only [validScalar, decide_eq_true_eq] at h
  by_cases h1 : n ≤ 127
  · have he : utf8EncodeChar n = [n] := by unfold utf8EncodeChar; rw [if_pos h1]
    rw [he]
    show utf8DecodeIgnore (n :: rest) = n :: utf8DecodeIgnore rest
    rw [utf8DecodeIgnore_cons]
    unfold utf8Step
    rw [if_pos h1]
  · by_cases h2 : n ≤ 2047
    · have he : utf8EncodeChar n = [192 + n / 64, 128 + n % 64] := by
        unfold utf8EncodeChar; rw [if_neg h1, if_pos h2]
      rw [he]
      show utf8DecodeIgnore ((192 + n / 64) :: (128 + n % 64) :: rest) = n :: utf8DecodeIgnore rest
      rw [utf8DecodeIgnore_cons, utf8Step_two _ _ _ (by omega)
        (by simp only [contByte, decide_eq_true_eq]; omega)]
      have : (192 + n / 64 - 192) * 64 + (128 + n % 64 - 128) = n := by omega
      rw [this]
    · by_cases h3 : n ≤ 65535
      · have he : utf8EncodeChar n = [224 + n / 4096, 128 + n / 64 % 64, 128 + n % 64] := by
          unfold utf8EncodeChar; rw [if_neg h1, if_neg h2, if_pos h3]
        rw [he]
        show utf8DecodeIgnore
            ((224 + n / 4096) :: (128 + n / 64 % 64) :: (128 + n % 64) :: rest) =
          n :: utf8DecodeIgnore rest
        have hfc : firstCont (224 + n / 4096) (128 + n / 64 % 64) = true := by
          simp only [firstCont, firstContLo, firstContHi, decide_eq_true_eq]
          refine ⟨?_, ?_⟩
          · split
            · omega
            · split <;> omega
          · split
            · omega
            · split <;> omega
        rw [utf8DecodeIgnore_cons, utf8Step_three _ _ _ _ (by omega) hfc
          (by simp only [contByte, decide_eq_true_eq]; omega)]
        have : (224 + n / 4096 - 224) * 4096 + (128 + n / 64 % 64 - 128) * 64 +
            (128 + n % 64 - 128) = n := by omega
        rw [this]
      · have he : utf8EncodeChar n =
            [240 + n / 262144, 128 + n / 4096 % 64, 128 + n / 64 % 64, 128 + n % 64] := by
          unfold utf8EncodeChar; rw [if_neg h1, if_neg h2, if_neg h3]
        rw [he]
        show utf8DecodeIgnore ((240 + n / 262144) :: (128 + n / 4096 % 64) ::
            (128 + n / 64 % 64) :: (128 + n % 64) :: rest) = n :: utf8DecodeIgnore rest
        have hfc : firstCont (240 + n / 262144) (128 + n / 4096 % 64) = true := by
          simp only [firstCont, firstContLo, firstContHi, decide_eq_true_eq]
          refine ⟨?_, ?_⟩
          · split
            · omega
            · split <;> omega
          · split
            · omega
            · split <;> omega
        rw [utf8DecodeIgnore_cons, utf8Step_four _ _ _ _ _ (by omega) hfc
          (by simp only [contByte, decide_eq_true_eq]; omega)
          (by simp only [contByte, decide_eq_true_eq]; omega)]
        have : (240 + n / 262144 - 240) * 262144 + (128 + n / 4096 % 64 - 128) * 4096 +
            (128 + n / 64 % 64 - 128) * 64 + (128 + n % 64 - 128) = n := by omega
        rw [this]

/-- C9 (amended): the `.txt` extractor decodes UTF-8 — it round-trips
every encoded sequence of Unicode scalar values — and it DROPS
undecodable byte sequences (`errors="ignore"`) rather than replacing
them; being a total function of the input bytes, it never fails. -/
theorem c9_txt_decode_utf8 :
    (∀ cs : List Nat, (∀ n ∈ cs, validScalar n = true) →
       extractTextTxt (utf8Encode cs) = cs) ∧
    extractTextTxt [255] = [] := by
  constructor
  · intro cs h
    induction cs with
    | nil => rfl
    | cons n t ih =>
      have hn := h n (by simp)
      have ht : ∀ m ∈ t, validScalar m = true := fun m hm => h m (by simp [hm])
      show utf8DecodeIgnore (utf8Encode (n :: t)) = n :: t
      have hl : utf8Encode (n :: t) = utf8EncodeChar n ++ utf8Encode t := by
        simp [utf8Encode]
      rw [hl, decode_encodeChar n hn (utf8Encode t)]
      exact congrArg (n :: ·) (ih ht)
  · rfl

/-- Witness for C9 at a concrete mixed-width scalar sequence
("H", "é", "€", an emoji). -/
theorem c9_txt_decode_utf8_witness :
    extractTextTxt (utf8Encode [72, 233, 8364, 128512]) = [72, 233, 8364, 128512] :=
  c9_txt_decode_utf8.1 [72, 233, 8364, 128512] (by decide)

/-- Counterexample to C9 as stated: the claim says undecodable byte
sequences are REPLACED (which would emit U+FFFD = 65533); on the
invalid byte 0xFF the extractor emits nothing at all — the byte is
dropped (`errors="ignore"`), not replaced. -/
theorem c9_counterexample :
    extractTextTxt [255] = [] ∧ ([] : List Nat) ≠ [65533] :=
  ⟨rfl, by decide⟩

/-!  ## Concrete evaluation lemmas for `round2`

Rational arithmetic does not reduce inside the kernel (normalization
uses `Nat.gcd`), so concrete roundings are established through the
floor characterization. -/

theorem round2_concrete (q : ℚ) (m : ℤ) (hle : (m : ℚ) ≤ q * 100) (hlt : q * 100 < m + 1)
    (hfr : q * 100 - m < 1/2) : round2 q = (m : ℚ) / 100 := by
  have hfl : ⌊q * 100⌋ = m := Int.floor_eq_iff.mpr ⟨hle, hlt⟩
  unfold round2 rhe
  rw [hfl, if_pos hfr]

theorem round2_tie (q : ℚ) (m : ℤ) (h : q * 100 = m + 1/2) :
    round2 q = (if m % 2 = 0 then (m : ℚ) else m + 1) / 100 := by
  have hfl : ⌊q * 100⌋ = m := by
    rw [Int.floor_eq_iff]
    constructor
    · rw [h]; linarith
    · rw [h]; linarith
  unfold round2 rhe
  rw [hfl, if_neg (by rw [h]; linarith), if_neg (by rw [h]; linarith)]
  by_cases hm : m % 2 = 0
  · rw [if_pos hm, if_pos hm]
  · rw [if_neg hm, if_neg hm]; push_cast; ring

/-- `rhe` rounds to a nearest integer (the distance to its result never
exceeds one half). -/
theorem rhe_nearest (x : ℚ) : |x - rhe x| ≤ 1/2 := by
  have h0 : (0 : ℚ) ≤ x - ⌊x⌋ := by
    have := Int.floor_le x
    linarith
  have h1 : x - ⌊x⌋ < 1 := by
    have := Int.lt_floor_add_one x
    linarith
  unfold rhe
  by_cases ha : x - ⌊x⌋ < 1/2
  · rw [if_pos ha, abs_le]
    constructor <;> linarith
  · rw [if_neg ha]
    by_cases hb : x - ⌊x⌋ > 1/2
    · rw [if_pos hb, abs_le]
      push_cast
      constructor <;> linarith
    · rw [if_neg hb]
      have hx : x - ⌊x⌋ = 1/2 := by linarith
      by_cases hm : (⌊x⌋ : ℤ) % 2 = 0
      · rw [if_pos hm, abs_le]
        constructor <;> linarith
      · rw [if_neg hm, abs_le]
        push_cast
        constructor <;> linarith

/-!  ## Claim C1: null parse result versus empty array -/

/-- Counterexample to C1 as stated: a whitespace-only model response —
on which no parsing strategy recovers a JSON array (here every strategy
and `json.loads` itself are the constantly-failing functions) — yields
the EMPTY LIST, not `None`; and downstream, `main`'s `if parsed:` check
does NOT let an empty array proceed to an empty report: both `None` and
`[]` are falsy and abort the run identically. -/
theorem c1_counterexample :
    safe_parse_json (fun _ => none) (fun _ => none) (fun _ => none) "   " = some (.arr []) ∧
    mainProceeds (some (.arr [])) = false := by
  constructor
  · unfold safe_parse_json
    rw [if_neg (by decide)]
  · rfl

/-- C1 (amended): a whitespace-only (or empty) response short-circuits
to the empty list; the parse result is `None` exactly when the response
is non-blank and `json.loads` fails on the cleaned text; and downstream
`main` treats `None` and the empty array identically — `if parsed:`
aborts the remainder of the run for both. -/
theorem c1_null_vs_empty (ef ea : String → Option String) (loads : String → Option Json)
    (s : String) :
    (pyStrip s = "" → safe_parse_json ef ea loads s = some (.arr [])) ∧
    (safe_parse_json ef ea loads s = none ↔
       pyStrip s ≠ "" ∧ loads (cleanOutput ef ea s) = none) ∧
    mainProceeds none = false ∧
    mainProceeds (some (.arr [])) = false := by
  refine ⟨?_, ?_, rfl, rfl⟩
  · intro h
    unfold safe_parse_json
    rw [if_neg]
    intro hc
    exact hc.2 h
  · by_cases h : pyStrip s = ""
    · constructor
      · intro hn
        exfalso
        unfold safe_parse_json at hn
        rw [if_neg (fun hc => hc.2 h)] at hn
        exact Option.some_ne_none _ hn
      · intro hc
        exact absurd h hc.1
    · have hs : s ≠ "" := by
        intro he
        subst he
        exact h rfl
      unfold safe_parse_json
      rw [if_pos ⟨hs, h⟩]
      constructor
      · intro hl
        exact ⟨h, hl⟩
      · intro hc
        exact hc.2

/-- Witness for C1 (amended) at concrete inputs: the empty response
gives the empty array, and a non-blank unparseable response gives
`None`. -/
theorem c1_null_vs_empty_witness :
    safe_parse_json (fun _ => none) (fun _ => none) (fun _ => none) "" = some (.arr []) ∧
    safe_parse_json (fun _ => none) (fun _ => none) (fun _ => none) "xx" = none := by
  constructor
  · exact (c1_null_vs_empty (fun _ => none) (fun _ => none) (fun _ => none) "").1 rfl
  · exact ((c1_null_vs_empty (fun _ => none) (fun _ => none) (fun _ => none) "xx").2.1).mpr
      ⟨by decide, rfl⟩

/-!  ## Validator helper definitions and per-step lemmas -/

theorem stepNormalize_eq (e : Entry) (f c cu : String)
    (hF : eget e "Form" = some (.s f)) (hC : eget e "Code" = some (.s c))
    (hCu : eget e "Source Currency" = some (.s cu)) :
    stepNormalize e = some
      (eset (eset e "Form" (.s (pyStrip f))) "Code" (.s (normalize_code c)),
       pyStrip f, normalize_code c, pyUpper cu) := by
  have h1 : eget (eset e "Form" (.s (pyStrip f))) "Code" = some (.s c) := by
    rw [eget_eset_ne _ _ _ _ (by decide)]
    exact hC
  have h2 : eget (eset (eset e "Form" (.s (pyStrip f))) "Code" (.s (normalize_code c)))
      "Source Currency" = some (.s cu) := by
    rw [eget_eset_ne _ _ _ _ (by decide), eget_eset_ne _ _ _ _ (by decide)]
    exact hCu
  simp [stepNormalize, hF, h1, h2]

theorem stepAmount_num (e : Entry) (a : ℚ) (h : eget e "Amount (Source)" = some (.n a)) :
    stepAmount e = (eset e "Amount (Source)" (.n a), .n a, []) := by
  simp [stepAmount, h]

theorem stepAmount_str (e : Entry) (t : String) (a : ℚ)
    (h : eget e "Amount (Source)" = some (.s t)) (hp : pyFloat (stripCommaSpace t) = some a) :
    stepAmount e = (eset e "Amount (Source)" (.n a), .n a, []) := by
  simp [stepAmount, h, hp]

theorem eget_stepAmount_fst (e : Entry) (k : String) (h : k ≠ "Amount (Source)") :
    eget (stepAmount e).1 k = eget e k := by
  unfold stepAmount
  split
  · split
    · exact eget_eset_ne _ _ _ _ (Ne.symm h)
    · exact eget_eset_ne _ _ _ _ (Ne.symm h)
  · exact eget_eset_ne _ _ _ _ (Ne.symm h)

theorem stepEur_eur (rates : List (String × ℚ)) (amt : Json) (e : Entry) :
    stepEur rates "EUR" amt e = some (eset e "Amount (€)" amt, []) := by
  simp [stepEur]

theorem stepEur_known (rates : List (String × ℚ)) (cur : String) (amt : Json) (e : Entry)
    (r a : ℚ) (hcur : cur ≠ "EUR") (hr : alookup rates cur = some r) (hr0 : r ≠ 0)
    (ha : jnum? amt = some a) :
    stepEur rates cur amt e = some (eset e "Amount (€)" (.n (round2 (a * r))), []) := by
  simp [stepEur, hcur, hr, hr0, ha]

theorem stepEur_fallback (rates : List (String × ℚ)) (cur : String) (amt : Json) (e : Entry)
    (hcur : cur ≠ "EUR") (hr : alookup rates cur = none ∨ alookup rates cur = some 0) :
    stepEur rates cur amt e =
      some (eset e "Amount (€)" amt, [Warning.unknownCurrency cur (descOf e)]) := by
  rcases hr with hr | hr <;> simp [stepEur, hcur, hr]

theorem eget_stepEur_ne (rates : List (String × ℚ)) (cur : String) (amt : Json)
    (e e' : Entry) (w2 : List Warning) (k : String)
    (hs : stepEur rates cur amt e = some (e', w2)) (h : k ≠ "Amount (€)") :
    eget e' k = eget e k := by
  unfold stepEur at hs
  repeat' split at hs
  all_goals first
    | exact Option.noConfusion hs
    | (simp only [Option.some.injEq, Prod.mk.injEq] at hs
       rw [← hs.1]
       exact eget_eset_ne _ _ _ _ (Ne.symm h))

theorem stepTaxable_fst_ne (fld : String) (e : Entry) (k : String) (h : k ≠ fld) :
    eget (stepTaxable fld e).1 k = eget e k := by
  unfold stepTaxable
  repeat' split
  all_goals first
    | rfl
    | exact eget_eset_ne _ _ _ _ (Ne.symm h)

theorem stepTaxable_fst_self (fld : String) (e : Entry) :
    eget (stepTaxable fld e).1 fld = some (coerceTaxVal (eget e fld)) := by
  unfold stepTaxable coerceTaxVal
  cases he : eget e fld with
  | none => exact eget_eset_self _ _ _
  | some v =>
    by_cases hv : eqEmptyStr v = true
    · simp only [hv, if_true]
      exact eget_eset_self _ _ _
    · simp only [hv, if_false, Bool.false_eq_true]
      cases v with
      | s t =>
        cases hp : pyFloat (stripCommaSpace t) with
        | none => simp only [hp]; exact eget_eset_self _ _ _
        | some q => simp only [hp]; exact eget_eset_self _ _ _
      | null => rw [he]
      | b x => rw [he]
      | n q => rw [he]
      | arr xs => rw [he]
      | obj kvs => rw [he]

theorem stepTaxable_snd (fld : String) (e : Entry) :
    (stepTaxable fld e).2 = [] ∨
    ∃ t, (stepTaxable fld e).2 = [Warning.badTaxable fld t (descOf e)] := by
  unfold stepTaxable
  repeat' split
  all_goals first
    | (left; rfl)
    | (right; exact ⟨_, rfl⟩)

theorem stepClassify_known (form code : String) (e : Entry) (d : String)
    (h : lookupTaxCode form code = some d) :
    stepClassify form code e =
      (eset (eset e "Valid Code" (.b true)) "Code Description" (.s d), []) := by
  unfold lookupTaxCode at h
  unfold stepClassify
  cases hf : alookup taxCodes form with
  | none => rw [hf] at h; simp at h
  | some codes =>
    rw [hf] at h
    simp only [Option.some_bind] at h
    simp [h]

theorem stepClassify_unknown_code (form code : String) (e : Entry)
    (codes : List (String × String)) (hf : alookup taxCodes form = some codes)
    (hc : alookup codes code = none) :
    stepClassify form code e =
      (eset (eset e "Valid Code" (.b false)) "Code Description" (.s ""),
       [Warning.unknownCode code form (descOf e)]) := by
  unfold stepClassify
  simp [hf, hc]

theorem stepClassify_unknown_form (form code : String) (e : Entry)
    (hf : alookup taxCodes form = none) :
    stepClassify form code e =
      (eset (eset e "Valid Code" (.b false)) "Code Description" (.s ""),
       [Warning.unknownForm form (descOf e)]) := by
  unfold stepClassify
  simp [hf]

theorem eget_stepClassify_ne (form code : String) (e : Entry) (k : String)
    (h1 : k ≠ "Valid Code") (h2 : k ≠ "Code Description") :
    eget (stepClassify form code e).1 k = eget e k := by
  unfold stepClassify
  repeat' split
  all_goals rw [eget_eset_ne _ _ _ _ (Ne.symm h2), eget_eset_ne _ _ _ _ (Ne.symm h1)]

theorem stepSTE_skip (form code : String) (e : Entry)
    (h : ¬ (form = "2042" ∧ code = "5TE")) : stepSTE form code e = some e := by
  simp [stepSTE, h]

theorem stepSTE_not_truthy (e : Entry)
    (hv : ∀ v, eget e "Taxable in France (€)" = some v → jsonTruthy v = false) :
    stepSTE "2042" "5TE" e = some e := by
  unfold stepSTE
  rw [if_pos ⟨rfl, rfl⟩]
  cases he : eget e "Taxable in France (€)" with
  | none => rfl
  | some v => simp [hv v he]

theorem stepSTE_fire (e : Entry) (v : Json) (q : ℚ) (notes : String)
    (hv : eget e "Taxable in France (€)" = some v) (ht : jsonTruthy v = true)
    (hj : jnum? v = some q) (hn : (eget e "Notes").getD (.s "") = .s notes) :
    stepSTE "2042" "5TE" e =
      some (eset (eset (eset e
        "Abatement Amount" (.n (round2 (q * (71/100)))))
        "Taxable in France (€) After Abatement" (.n (round2 (q * (29/100)))))
        "Notes" (.s (notes ++ steNote))) := by
  unfold stepSTE
  rw [if_pos ⟨rfl, rfl⟩, hv]
  simp only [ht, if_true, hj, hn]

theorem eget_stepSTE_ne (form code : String) (e e' : Entry) (k : String)
    (hs : stepSTE form code e = some e')
    (h1 : k ≠ "Abatement Amount") (h2 : k ≠ "Taxable in France (€) After Abatement")
    (h3 : k ≠ "Notes") :
    eget e' k = eget e k := by
  unfold stepSTE at hs
  repeat' split at hs
  all_goals first
    | exact Option.noConfusion hs
    | (injection hs with h
       subst h
       first
         | rfl
         | rw [eget_eset_ne _ _ _ _ (Ne.symm h3), eget_eset_ne _ _ _ _ (Ne.symm h2),
             eget_eset_ne _ _ _ _ (Ne.symm h1)])

theorem descOf_eset_ne (e : Entry) (k : String) (v : Json) (h : k ≠ "Description") :
    descOf (eset e k v) = descOf e := by
  unfold descOf
  rw [eget_eset_ne _ _ _ _ h]

/-- Master characterization of the validator loop body on an entry that
flows through without raising: the entry is retained, and the EUR
amount, classification, and 5TE-rule effects are as the source
computes them. -/
theorem processEntry_good (rates : List (String × ℚ)) (e : Entry) (f c cu : String) (a : ℚ)
    (h : GoodEntry e f c cu a) :
    ∃ e' ws, processEntry rates e = some (some e', ws) ∧
      validate_and_clean_data rates [e] = some ([e'], ws) ∧
      (pyUpper cu = "EUR" → eget e' "Amount (€)" = some (.n a)) ∧
      (∀ r : ℚ, pyUpper cu ≠ "EUR" → alookup rates (pyUpper cu) = some r → r ≠ 0 →
        eget e' "Amount (€)" = some (.n (round2 (a * r)))) ∧
      (pyUpper cu ≠ "EUR" →
        (alookup rates (pyUpper cu) = none ∨ alookup rates (pyUpper cu) = some 0) →
        eget e' "Amount (€)" = some (.n a) ∧
        Warning.unknownCurrency (pyUpper cu) (descOf e) ∈ ws) ∧
      (∀ d, lookupTaxCode (pyStrip f) (normalize_code c) = some d →
        eget e' "Valid Code" = some (.b true) ∧ eget e' "Code Description" = some (.s d)) ∧
      (lookupTaxCode (pyStrip f) (normalize_code c) = none →
        eget e' "Valid Code" = some (.b false) ∧ eget e' "Code Description" = some (.s "") ∧
        ws.count (if (alookup taxCodes (pyStrip f)).isSome = true
            then Warning.unknownCode (normalize_code c) (pyStrip f) (descOf e)
            else Warning.unknownForm (pyStrip f) (descOf e)) = 1) ∧
      (∀ q : ℚ, pyStrip f = "2042" → normalize_code c = "5TE" →
        coerceTaxVal (eget e "Taxable in France (€)") = .n q → q ≠ 0 →
        eget e' "Abatement Amount" = some (.n (round2 (q * (71/100)))) ∧
        eget e' "Taxable in France (€) After Abatement" = some (.n (round2 (q * (29/100)))) ∧
        ∃ t0, eget e' "Notes" = some (.s (t0 ++ steNote))) ∧
      (jsonTruthy (coerceTaxVal (eget e "Taxable in France (€)")) = false →
        eget e' "Abatement Amount" = eget e "Abatement Amount") := by
  obtain ⟨hreq, hF, hC, hCu, hA, hTF, hN⟩ := h
  set e2 : Entry := eset (eset e "Form" (.s (pyStrip f))) "Code" (.s (normalize_code c))
    with he2
  set e3 : Entry := eset e2 "Amount (Source)" (.n a) with he3
  have hns : stepNormalize e = some (e2, pyStrip f, normalize_code c, pyUpper cu) :=
    stepNormalize_eq e f c cu hF hC hCu
  have hA2 : stepAmount e2 = (e3, .n a, []) := by
    rcases hA with hA | ⟨t, hA, hp⟩
    · refine stepAmount_num _ a ?_
      rw [he2, eget_eset_ne _ _ _ _ (by decide), eget_eset_ne _ _ _ _ (by decide)]
      exact hA
    · refine stepAmount_str _ t a ?_ hp
      rw [he2, eget_eset_ne _ _ _ _ (by decide), eget_eset_ne _ _ _ _ (by decide)]
      exact hA
  have hframe3 : ∀ k, k ≠ "Form" → k ≠ "Code" → k ≠ "Amount (Source)" →
      eget e3 k = eget e k := by
    intro k h1 h2 h3
    rw [he3, he2, eget_eset_ne _ _ _ _ (Ne.symm h3), eget_eset_ne _ _ _ _ (Ne.symm h2),
      eget_eset_ne _ _ _ _ (Ne.symm h1)]
  have hdesc3 : descOf e3 = descOf e := by
    rw [he3, he2, descOf_eset_ne _ _ _ (by decide), descOf_eset_ne _ _ _ (by decide),
      descOf_eset_ne _ _ _ (by decide)]
  have heur : ∃ v w2, stepEur rates (pyUpper cu) (.n a) e3 = some (eset e3 "Amount (€)" v, w2) ∧
      (pyUpper cu = "EUR" → v = .n a ∧ w2 = []) ∧
      (∀ r : ℚ, pyUpper cu ≠ "EUR" → alookup rates (pyUpper cu) = some r → r ≠ 0 →
        v = .n (round2 (a * r)) ∧ w2 = []) ∧
      (pyUpper cu ≠ "EUR" →
        (alookup rates (pyUpper cu) = none ∨ alookup rates (pyUpper cu) = some 0) →
        v = .n a ∧ w2 = [Warning.unknownCurrency (pyUpper cu) (descOf e3)]) ∧
      (w2 = [] ∨ w2 = [Warning.unknownCurrency (pyUpper cu) (descOf e3)]) := by
    by_cases hcur : pyUpper cu = "EUR"
    · refine ⟨.n a, [], ?_, fun _ => ⟨rfl, rfl⟩, ?_, ?_, Or.inl rfl⟩
      · rw [hcur]
        exact stepEur_eur rates (.n a) e3
      · intro r hc _ _
        exact absurd hcur hc
      · intro hc _
        exact absurd hcur hc
    · cases hr : alookup rates (pyUpper cu) with
      | none =>
        refine ⟨.n a, [Warning.unknownCurrency (pyUpper cu) (descOf e3)],
          stepEur_fallback rates _ (.n a) e3 hcur (Or.inl hr), ?_, ?_,
          fun _ _ => ⟨rfl, rfl⟩, Or.inr rfl⟩
        · intro hc
          exact absurd hc hcur
        · intro r _ hr' _
          exact Option.noConfusion hr'
      | some r0 =>
        by_cases hr0 : r0 = 0
        · subst hr0
          refine ⟨.n a, [Warning.unknownCurrency (pyUpper cu) (descOf e3)],
            stepEur_fallback rates _ (.n a) e3 hcur (Or.inr hr), ?_, ?_,
            fun _ _ => ⟨rfl, rfl⟩, Or.inr rfl⟩
          · intro hc
            exact absurd hc hcur
          · intro r _ hr' hrne
            injection hr' with h0
            exact absurd h0.symm hrne
        · refine ⟨.n (round2 (a * r0)), [],
            stepEur_known rates _ (.n a) e3 r0 a hcur hr hr0 rfl, ?_, ?_, ?_, Or.inl rfl⟩
          · intro hc
            exact absurd hc hcur
          · intro r _ hr' _
            injection hr' with h0
            exact ⟨by rw [h0], rfl⟩
          · intro _ hd
            rcases hd with hd | hd
            · exact Option.noConfusion hd
            · injection hd with h0
              exact absurd h0 hr0
  obtain ⟨v, w2, hEUR, hveur, hvknown, hvfb, hw2shape⟩ := heur
  set e4 : Entry := eset e3 "Amount (€)" v with he4
  rcases hp5a : stepTaxable "Taxable in France (€)" e4 with ⟨e5a, w3a⟩
  rcases hp5 : stepTaxable "Taxable in Source Country (€)" e5a with ⟨e5, w3b⟩
  rcases hcl : stepClassify (pyStrip f) (normalize_code c) e5 with ⟨e6, w4⟩
  have hfr5a : ∀ k, k ≠ "Taxable in France (€)" → eget e5a k = eget e4 k := by
    intro k hk
    have hx := stepTaxable_fst_ne "Taxable in France (€)" e4 k hk
    rw [hp5a] at hx
    exact hx
  have hfr5 : ∀ k, k ≠ "Taxable in Source Country (€)" → eget e5 k = eget e5a k := by
    intro k hk
    have hx := stepTaxable_fst_ne "Taxable in Source Country (€)" e5a k hk
    rw [hp5] at hx
    exact hx
  have hfr6 : ∀ k, k ≠ "Valid Code" → k ≠ "Code Description" → eget e6 k = eget e5 k := by
    intro k h1 h2
    have hx := eget_stepClassify_ne (pyStrip f) (normalize_code c) e5 k h1 h2
    rw [hcl] at hx
    exact hx
  have hTF4 : eget e4 "Taxable in France (€)" = eget e "Taxable in France (€)" := by
    rw [he4, eget_eset_ne _ _ _ _ (by decide)]
    exact hframe3 _ (by decide) (by decide) (by decide)
  have hVe6 : eget e6 "Taxable in France (€)" =
      some (coerceTaxVal (eget e "Taxable in France (€)")) := by
    rw [hfr6 _ (by decide) (by decide), hfr5 _ (by decide)]
    have hself := stepTaxable_fst_self "Taxable in France (€)" e4
    rw [hp5a] at hself
    rw [hself, hTF4]
  have hN6 : eget e6 "Notes" = eget e "Notes" := by
    rw [hfr6 _ (by decide) (by decide), hfr5 _ (by decide), hfr5a _ (by decide), he4,
      eget_eset_ne _ _ _ _ (by decide)]
    exact hframe3 _ (by decide) (by decide) (by decide)
  have hdesc5 : descOf e5 = descOf e := by
    unfold descOf
    rw [hfr5 _ (by decide), hfr5a _ (by decide), he4, eget_eset_ne _ _ _ _ (by decide)]
    rw [hframe3 _ (by decide) (by decide) (by decide)]
  have hw3a : w3a = [] ∨
      ∃ t', w3a = [Warning.badTaxable "Taxable in France (€)" t' (descOf e4)] := by
    have hx := stepTaxable_snd "Taxable in France (€)" e4
    rw [hp5a] at hx
    exact hx
  have hw3b : w3b = [] ∨
      ∃ t', w3b = [Warning.badTaxable "Taxable in Source Country (€)" t' (descOf e5a)] := by
    have hx := stepTaxable_snd "Taxable in Source Country (€)" e5a
    rw [hp5] at hx
    exact hx
  have hste : ∃ e7, stepSTE (pyStrip f) (normalize_code c) e6 = some e7 ∧
      (∀ q : ℚ, pyStrip f = "2042" → normalize_code c = "5TE" →
        coerceTaxVal (eget e "Taxable in France (€)") = .n q → q ≠ 0 →
        eget e7 "Abatement Amount" = some (.n (round2 (q * (71/100)))) ∧
        eget e7 "Taxable in France (€) After Abatement" = some (.n (round2 (q * (29/100)))) ∧
        ∃ t0, eget e7 "Notes" = some (.s (t0 ++ steNote))) ∧
      (jsonTruthy (coerceTaxVal (eget e "Taxable in France (€)")) = false → e7 = e6) ∧
      (∀ k, k ≠ "Abatement Amount" → k ≠ "Taxable in France (€) After Abatement" →
        k ≠ "Notes" → eget e7 k = eget e6 k) := by
    by_cases h52 : pyStrip f = "2042" ∧ normalize_code c = "5TE"
    · obtain ⟨hf2, hc2⟩ := h52
      by_cases htv : jsonTruthy (coerceTaxVal (eget e "Taxable in France (€)")) = true
      · have hjs : (jnum? (coerceTaxVal (eget e "Taxable in France (€)"))).isSome = true := by
          unfold taxOkB at hTF
          rw [htv] at hTF
          simpa using hTF
        obtain ⟨qv, hqv⟩ := Option.isSome_iff_exists.mp hjs
        have hnotes : ∃ ns, (eget e6 "Notes").getD (.s "") = .s ns := by
          rw [hN6]
          cases hgn : eget e "Notes" with
          | none => exact ⟨"", rfl⟩
          | some nv =>
            unfold notesOkB at hN
            rw [hgn] at hN
            cases nv with
            | s t => exact ⟨t, rfl⟩
            | null => simp at hN
            | b x => simp at hN
            | n q => simp at hN
            | arr xs => simp at hN
            | obj kvs => simp at hN
        obtain ⟨ns, hnse⟩ := hnotes
        refine ⟨eset (eset (eset e6
            "Abatement Amount" (.n (round2 (qv * (71/100)))))
            "Taxable in France (€) After Abatement" (.n (round2 (qv * (29/100)))))
            "Notes" (.s (ns ++ steNote)), ?_, ?_, ?_, ?_⟩
        · rw [hf2, hc2]
          exact stepSTE_fire e6 _ qv ns hVe6 htv hqv hnse
        · intro q _ _ hcv hq
          rw [hcv] at hqv
          simp only [jnum?, Option.some.injEq] at hqv
          subst hqv
          refine ⟨?_, ?_, ⟨ns, ?_⟩⟩
          · rw [eget_eset_ne _ _ _ _ (by decide), eget_eset_ne _ _ _ _ (by decide),
              eget_eset_self]
          · rw [eget_eset_ne _ _ _ _ (by decide), eget_eset_self]
          · rw [eget_eset_self]
        · intro hfalse
          rw [htv] at hfalse
          exact Bool.noConfusion hfalse
        · intro k h1 h2 h3
          rw [eget_eset_ne _ _ _ _ (Ne.symm h3), eget_eset_ne _ _ _ _ (Ne.symm h2),
            eget_eset_ne _ _ _ _ (Ne.symm h1)]
      · rw [Bool.not_eq_true] at htv
        have hskip : stepSTE (pyStrip f) (normalize_code c) e6 = some e6 := by
          rw [hf2, hc2]
          refine stepSTE_not_truthy e6 ?_
          intro vv hvv
          rw [hVe6] at hvv
          injection hvv with hvv'
          rw [← hvv']
          exact htv
        refine ⟨e6, hskip, ?_, fun _ => rfl, fun k _ _ _ => rfl⟩
        intro q _ _ hcv hq
        exfalso
        rw [hcv] at htv
        simp [jsonTruthy, hq] at htv
    · refine ⟨e6, stepSTE_skip _ _ _ h52, ?_, fun _ => rfl, fun k _ _ _ => rfl⟩
      intro q hf' hc' _ _
      exact absurd ⟨hf', hc'⟩ h52
  obtain ⟨e7, hsteEq, h3fact, h4eq, hfr7⟩ := hste
  have hpe : processEntry rates e = some (some e7, w2 ++ w3a ++ w3b ++ w4) := by
    unfold processEntry
    rw [if_pos hreq, hns]
    dsimp only
    rw [hA2]
    dsimp only
    rw [hEUR]
    dsimp only
    rw [hp5a]
    dsimp only
    rw [hp5]
    dsimp only
    rw [hcl]
    dsimp only
    rw [hsteEq]
    rfl
  have hvac : validate_and_clean_data rates [e] = some ([e7], w2 ++ w3a ++ w3b ++ w4) := by
    simp [validate_and_clean_data, vacGo, hpe]
  have hAm7 : eget e7 "Amount (€)" = eget e4 "Amount (€)" := by
    rw [hfr7 _ (by decide) (by decide) (by decide), hfr6 _ (by decide) (by decide),
      hfr5 _ (by decide), hfr5a _ (by decide)]
  have hAm4 : eget e4 "Amount (€)" = some v := by
    rw [he4]
    exact eget_eset_self _ _ _
  refine ⟨e7, w2 ++ w3a ++ w3b ++ w4, hpe, hvac, ?_, ?_, ?_, ?_, ?_, h3fact, ?_⟩
  · intro hcur
    obtain ⟨hv, _⟩ := hveur hcur
    rw [hAm7, hAm4, hv]
  · intro r hcur hr hr0
    obtain ⟨hv, _⟩ := hvknown r hcur hr hr0
    rw [hAm7, hAm4, hv]
  · intro hcur hd
    obtain ⟨hv, hw⟩ := hvfb hcur hd
    rw [hdesc3] at hw
    constructor
    · rw [hAm7, hAm4, hv]
    · simp [hw]
  · intro d hd
    have hclk := stepClassify_known (pyStrip f) (normalize_code c) e5 d hd
    have hp := hcl.symm.trans hclk
    have he6 : e6 = eset (eset e5 "Valid Code" (.b true)) "Code Description" (.s d) :=
      congrArg Prod.fst hp
    constructor
    · rw [hfr7 _ (by decide) (by decide) (by decide), he6,
        eget_eset_ne _ _ _ _ (by decide), eget_eset_self]
    · rw [hfr7 _ (by decide) (by decide) (by decide), he6, eget_eset_self]
  · intro hd
    cases hfm : alookup taxCodes (pyStrip f) with
    | some codes =>
      have hcc : alookup codes (normalize_code c) = none := by
        unfold lookupTaxCode at hd
        rw [hfm] at hd
        simpa using hd
      have hclk := stepClassify_unknown_code (pyStrip f) (normalize_code c) e5 codes hfm hcc
      have hp := hcl.symm.trans hclk
      have he6 : e6 = eset (eset e5 "Valid Code" (.b false)) "Code Description" (.s "") :=
        congrArg Prod.fst hp
      have hw4 : w4 = [Warning.unknownCode (normalize_code c) (pyStrip f) (descOf e5)] :=
        congrArg Prod.snd hp
      rw [hdesc5] at hw4
      refine ⟨?_, ?_, ?_⟩
      · rw [hfr7 _ (by decide) (by decide) (by decide), he6,
          eget_eset_ne _ _ _ _ (by decide), eget_eset_self]
      · rw [hfr7 _ (by decide) (by decide) (by decide), he6, eget_eset_self]
      · simp only [Option.isSome_some, if_true]
        simp only [List.count_append, hw4]
        have hc2 : w2.count (Warning.unknownCode (normalize_code c) (pyStrip f) (descOf e)) = 0 := by
          rcases hw2shape with h' | h' <;> simp [h', List.count_cons, beq_iff_eq]
        have hc3a : w3a.count (Warning.unknownCode (normalize_code c) (pyStrip f) (descOf e)) = 0 := by
          rcases hw3a with h' | ⟨t', h'⟩ <;> simp [h', List.count_cons, beq_iff_eq]
        have hc3b : w3b.count (Warning.unknownCode (normalize_code c) (pyStrip f) (descOf e)) = 0 := by
          rcases hw3b with h' | ⟨t', h'⟩ <;> simp [h', List.count_cons, beq_iff_eq]
        rw [hc2, hc3a, hc3b]
        simp [List.count_cons, beq_iff_eq]
    | none =>
      have hclk := stepClassify_unknown_form (pyStrip f) (normalize_code c) e5 hfm
      have hp := hcl.symm.trans hclk
      have he6 : e6 = eset (eset e5 "Valid Code" (.b false)) "Code Description" (.s "") :=
        congrArg Prod.fst hp
      have hw4 : w4 = [Warning.unknownForm (pyStrip f) (descOf e5)] :=
        congrArg Prod.snd hp
      rw [hdesc5] at hw4
      refine ⟨?_, ?_, ?_⟩
      · rw [hfr7 _ (by decide) (by decide) (by decide), he6,
          eget_eset_ne _ _ _ _ (by decide), eget_eset_self]
      · rw [hfr7 _ (by decide) (by decide) (by decide), he6, eget_eset_self]
      · simp only [Option.isSome_none, Bool.false_eq_true, if_false]
        simp only [List.count_append, hw4]
        have hc2 : w2.count (Warning.unknownForm (pyStrip f) (descOf e)) = 0 := by
          rcases hw2shape with h' | h' <;> simp [h', List.count_cons, beq_iff_eq]
        have hc3a : w3a.count (Warning.unknownForm (pyStrip f) (descOf e)) = 0 := by
          rcases hw3a with h' | ⟨t', h'⟩ <;> simp [h', List.count_cons, beq_iff_eq]
        have hc3b : w3b.count (Warning.unknownForm (pyStrip f) (descOf e)) = 0 := by
          rcases hw3b with h' | ⟨t', h'⟩ <;> simp [h', List.count_cons, beq_iff_eq]
        rw [hc2, hc3a, hc3b]
        simp [List.count_cons, beq_iff_eq]
  · intro hfalse
    rw [h4eq hfalse]
    rw [hfr6 _ (by decide) (by decide), hfr5 _ (by decide), hfr5a _ (by decide), he4,
      eget_eset_ne _ _ _ _ (by decide)]
    exact hframe3 _ (by decide) (by decide) (by decide)

/-!  ## Rate-table lemmas for Claim C10 -/

theorem alookup_filter_self {α : Type} (l : List (String × α)) (k : String) :
    alookup (l.filter (fun p => p.1 ≠ k)) k = none := by
  induction l with
  | nil => rfl
  | cons p t ih =>
    by_cases hp : p.1 = k
    · have hd : (decide (p.1 ≠ k)) = false := by simp [hp]
      simp only [List.filter_cons, hd, Bool.false_eq_true, if_false]
      exact ih
    · have hd : (decide (p.1 ≠ k)) = true := by simp [hp]
      simp only [List.filter_cons, hd, if_true]
      unfold alookup
      rw [if_neg hp]
      exact ih

theorem alookup_filter_other {α : Type} (l : List (String × α)) (k k0 : String)
    (h : k ≠ k0) :
    alookup (l.filter (fun p => p.1 ≠ k0)) k = alookup l k := by
  induction l with
  | nil => rfl
  | cons p t ih =>
    by_cases hp : p.1 = k0
    · have hd : (decide (p.1 ≠ k0)) = false := by simp [hp]
      simp only [List.filter_cons, hd, Bool.false_eq_true, if_false]
      rw [ih]
      have hpk : ¬ p.1 = k := fun he => h (he ▸ hp)
      conv_rhs => unfold alookup
      rw [if_neg hpk]
    · have hd : (decide (p.1 ≠ k0)) = true := by simp [hp]
      simp only [List.filter_cons, hd, if_true]
      unfold alookup
      by_cases hk : p.1 = k
      · rw [if_pos hk, if_pos hk]
      · rw [if_neg hk, if_neg hk]
        exact ih

theorem stepEur_congr_of_zero (rates : List (String × ℚ)) (cur0 : String)
    (h0 : alookup rates cur0 = some 0) :
    ∀ (cur : String) (amt : Json) (e : Entry),
      stepEur rates cur amt e = stepEur (rates.filter (fun p => p.1 ≠ cur0)) cur amt e := by
  intro cur amt e
  by_cases hc : cur = cur0
  · subst hc
    unfold stepEur
    rw [h0, alookup_filter_self]
    simp
  · unfold stepEur
    rw [alookup_filter_other rates cur cur0 hc]

theorem processEntry_rates_congr (r1 r2 : List (String × ℚ)) (e : Entry)
    (h : ∀ (cur : String) (amt : Json) (e' : Entry),
      stepEur r1 cur amt e' = stepEur r2 cur amt e') :
    processEntry r1 e = processEntry r2 e := by
  unfold processEntry
  simp only [h]

/-!  ## Claim C3: EUR amount computation -/

/-- C3: for every entry that passes the required-field check (and flows
through the validator without a type error), the EUR amount is always
populated: it equals the source amount when the uppercased currency is
EUR; equals `round(amount * rate, 2)` when the Currency Table holds a
non-zero rate; and equals the source amount 1:1, with an
unknown-currency warning, otherwise. -/
theorem c3_eur_amount (rates : List (String × ℚ)) (e : Entry) (f c cu : String) (a : ℚ)
    (h : GoodEntry e f c cu a) :
    ∃ e' ws, processEntry rates e = some (some e', ws) ∧
      (pyUpper cu = "EUR" → eget e' "Amount (€)" = some (.n a)) ∧
      (∀ r : ℚ, pyUpper cu ≠ "EUR" → alookup rates (pyUpper cu) = some r → r ≠ 0 →
        eget e' "Amount (€)" = some (.n (round2 (a * r)))) ∧
      (pyUpper cu ≠ "EUR" →
        (alookup rates (pyUpper cu) = none ∨ alookup rates (pyUpper cu) = some 0) →
        eget e' "Amount (€)" = some (.n a) ∧
        Warning.unknownCurrency (pyUpper cu) (descOf e) ∈ ws) := by
  obtain ⟨e', ws, hpe, _, h1, h2, h3, _, _, _, _⟩ := processEntry_good rates e f c cu a h
  exact ⟨e', ws, hpe, h1, h2, h3⟩

theorem ce3w_good : GoodEntry ce3w "2047" "1AG" "GBP" 9351 :=
  ⟨by decide, rfl, rfl, rfl, Or.inl rfl, by decide, by decide⟩

/-- Witness for C3: 9351 GBP at the default rate 1.1812 gives EUR
amount 11045.40. -/
theorem c3_eur_amount_witness :
    ∃ e' ws, processEntry exchangeRates ce3w = some (some e', ws) ∧
      eget e' "Amount (€)" = some (.n (55227/5)) := by
  obtain ⟨e', ws, hpe, _, h2, _⟩ :=
    c3_eur_amount exchangeRates ce3w "2047" "1AG" "GBP" 9351 ce3w_good
  refine ⟨e', ws, hpe, ?_⟩
  have hx := h2 (11812/10000) (by decide) rfl (by norm_num)
  have hr2 : round2 (9351 * (11812/10000)) = 55227/5 := by
    rw [round2_concrete (9351 * (11812/10000)) 1104540 (by norm_num) (by norm_num)
      (by norm_num)]
    norm_num
  rw [hx, hr2]

/-!  ## Claim C4: rounding semantics -/

theorem ce4_good : GoodEntry ce4 "2042" "1AJ" "USD" (1/4) :=
  ⟨by decide, rfl, rfl, rfl, Or.inl rfl, by decide, by decide⟩

/-- Counterexample to C4 as stated: with a user-edited rate of 0.5 for
USD, the entry `ce4` of 0.25 USD converts to exactly 0.125 EUR before
rounding; half-up rounding (the claim) would give 0.13, but the code
(Python `round`, half-to-even) produces 0.12. -/
theorem c4_counterexample :
    ∃ e' ws, processEntry [("USD", 1/2)] ce4 = some (some e', ws) ∧
      eget e' "Amount (€)" = some (.n (3/25)) ∧ (3/25 : ℚ) ≠ 13/100 := by
  obtain ⟨e', ws, hpe, _, _, h2, _, _, _, _, _⟩ :=
    processEntry_good [("USD", 1/2)] ce4 "2042" "1AJ" "USD" (1/4) ce4_good
  have hx := h2 (1/2) (by decide) rfl (by norm_num)
  have hr2 : round2 ((1/4) * (1/2)) = 3/25 := by
    rw [round2_tie ((1/4) * (1/2)) 12 (by norm_num)]
    norm_num
  exact ⟨e', ws, hpe, by rw [hx, hr2], by norm_num⟩

/-- C4 (amended): every currency conversion performed by the validator
is rounded to two decimal places with Python's `round`, which rounds to
a NEAREST two-decimal value and resolves exact ties to the even last
digit (banker's rounding) — not away from zero; intermediate values are
exact until that rounding point. -/
theorem c4_rounding (rates : List (String × ℚ)) (e : Entry) (f c cu : String) (a r : ℚ)
    (h : GoodEntry e f c cu a) (hcur : pyUpper cu ≠ "EUR")
    (hr : alookup rates (pyUpper cu) = some r) (hr0 : r ≠ 0) :
    (∃ e' ws, processEntry rates e = some (some e', ws) ∧
       eget e' "Amount (€)" = some (.n (round2 (a * r)))) ∧
    (∀ x : ℚ, |x * 100 - rhe (x * 100)| ≤ 1/2) ∧
    (∀ (x : ℚ) (m : ℤ), x * 100 = m + 1/2 →
       round2 x = (if m % 2 = 0 then (m : ℚ) else m + 1) / 100) := by
  refine ⟨?_, fun x => rhe_nearest (x * 100), fun x m hm => round2_tie x m hm⟩
  obtain ⟨e', ws, hpe, _, _, h2, _, _, _, _, _⟩ := processEntry_good rates e f c cu a h
  exact ⟨e', ws, hpe, h2 r hcur hr hr0⟩

/-- Witness for C4 (amended) at the GBP entry, plus the banker's tie
at 0.125 → 0.12. -/
theorem c4_rounding_witness :
    (∃ e' ws, processEntry exchangeRates ce3w = some (some e', ws) ∧
       eget e' "Amount (€)" = some (.n (round2 (9351 * (11812/10000))))) ∧
    round2 (1/8) = 3/25 := by
  obtain ⟨h1, _, h3⟩ := c4_rounding exchangeRates ce3w "2047" "1AG" "GBP" 9351
    (11812/10000) ce3w_good (by decide) rfl (by norm_num)
  refine ⟨h1, ?_⟩
  have hx := h3 (1/8) 12 (by norm_num)
  rw [hx]
  norm_num

/-!  ## Claim C5: the 5TE abatement rule -/

theorem ce5z_good : GoodEntry ce5z "2042" "5TE" "EUR" 7387 := by
  refine ⟨by decide, rfl, rfl, rfl, Or.inl rfl, ?_, by decide⟩
  have h1 : eget ce5z "Taxable in France (€)" = some (.n 0) := rfl
  rw [h1]
  simp [coerceTaxVal, taxOkB, jsonTruthy, eqEmptyStr]

/-- Counterexample to C5 as stated: an entry with form 2042, code 5TE
and a NON-EMPTY France-taxable amount of 0 gets no abatement fields at
all — the rule's `if entry["Taxable in France (€)"]:` is a truthiness
check, which 0 fails, so "non-empty" is not the guard the code uses. -/
theorem c5_counterexample :
    ∃ e' ws, processEntry exchangeRates ce5z = some (some e', ws) ∧
      eget ce5z "Taxable in France (€)" = some (.n 0) ∧
      eget e' "Abatement Amount" = none := by
  obtain ⟨e', ws, hpe, _, _, _, _, _, _, _, h7⟩ :=
    processEntry_good exchangeRates ce5z "2042" "5TE" "EUR" 7387 ce5z_good
  have htv : jsonTruthy (coerceTaxVal (eget ce5z "Taxable in France (€)")) = false := by
    have h1 : eget ce5z "Taxable in France (€)" = some (.n 0) := rfl
    rw [h1]
    simp [coerceTaxVal, jsonTruthy, eqEmptyStr]
  exact ⟨e', ws, hpe, rfl, by rw [h7 htv]; rfl⟩

/-- C5 (amended): for every entry normalizing to form "2042", code
"5TE" whose France-taxable amount coerces to a non-empty AND non-zero
(truthy) number q, the validator adds an abatement amount
`round(q * 0.71, 2)`, a post-abatement amount `round(q * 0.29, 2)`, and
appends the fixed explanatory note; in particular 7387 yields 5244.77
and 2142.23 (see the witness). -/
theorem c5_abatement (rates : List (String × ℚ)) (e : Entry) (f c cu : String) (a q : ℚ)
    (h : GoodEntry e f c cu a) (hf2 : pyStrip f = "2042") (hc2 : normalize_code c = "5TE")
    (hq : coerceTaxVal (eget e "Taxable in France (€)") = .n q) (hq0 : q ≠ 0) :
    ∃ e' ws, processEntry rates e = some (some e', ws) ∧
      eget e' "Abatement Amount" = some (.n (round2 (q * (71/100)))) ∧
      eget e' "Taxable in France (€) After Abatement" =
        some (.n (round2 (q * (29/100)))) ∧
      ∃ t0, eget e' "Notes" = some (.s (t0 ++ steNote)) := by
  obtain ⟨e', ws, hpe, _, _, _, _, _, _, h6, _⟩ := processEntry_good rates e f c cu a h
  obtain ⟨hab, haft, hnotes⟩ := h6 q hf2 hc2 hq hq0
  exact ⟨e', ws, hpe, hab, haft, hnotes⟩

theorem ce5w_good : GoodEntry ce5w "2042" "5TE" "EUR" 7387 := by
  refine ⟨by decide, rfl, rfl, rfl, Or.inl rfl, ?_, by decide⟩
  have h1 : eget ce5w "Taxable in France (€)" = some (.n 7387) := rfl
  rw [h1]
  simp [coerceTaxVal, taxOkB, jsonTruthy, eqEmptyStr, jnum?]

/-- Witness for C5 (amended): France-taxable 7387 yields abatement
amount 5244.77 and post-abatement amount 2142.23. -/
theorem c5_abatement_witness :
    ∃ e' ws, processEntry exchangeRates ce5w = some (some e', ws) ∧
      eget e' "Abatement Amount" = some (.n (524477/100)) ∧
      eget e' "Taxable in France (€) After Abatement" = some (.n (214223/100)) := by
  obtain ⟨e', ws, hpe, hab, haft, _⟩ :=
    c5_abatement exchangeRates ce5w "2042" "5TE" "EUR" 7387 7387 ce5w_good rfl rfl rfl
      (by norm_num)
  have h71 : round2 ((7387 : ℚ) * (71/100)) = 524477/100 := by
    rw [round2_concrete _ 524477 (by norm_num) (by norm_num) (by norm_num)]
    norm_num
  have h29 : round2 ((7387 : ℚ) * (29/100)) = 214223/100 := by
    rw [round2_concrete _ 214223 (by norm_num) (by norm_num) (by norm_num)]
    norm_num
  exact ⟨e', ws, hpe, by rw [hab, h71], by rw [haft, h29]⟩

/-!  ## Claim C6: missing required fields -/

/-- C6: every candidate entry missing one of the five mandatory fields
is excluded from the validated set, with exactly one warning naming
its missing fields. -/
theorem c6_missing_required (rates : List (String × ℚ)) (e : Entry)
    (hmiss : ∃ fl ∈ requiredFields, eget e fl = none) :
    processEntry rates e = some (none,
      [Warning.missingFields (descOf e)
        (requiredFields.filter (fun fl => (eget e fl).isNone))]) ∧
    validate_and_clean_data rates [e] = some ([],
      [Warning.missingFields (descOf e)
        (requiredFields.filter (fun fl => (eget e fl).isNone))]) := by
  have hall : requiredFields.all (fun fl => (eget e fl).isSome) = false := by
    obtain ⟨fl, hin, hnone⟩ := hmiss
    apply List.all_eq_false.mpr
    exact ⟨fl, hin, by simp [hnone]⟩
  have hpe : processEntry rates e = some (none,
      [Warning.missingFields (descOf e)
        (requiredFields.filter (fun fl => (eget e fl).isNone))]) := by
    unfold processEntry
    rw [if_neg (by rw [hall]; simp)]
  exact ⟨hpe, by simp [validate_and_clean_data, vacGo, hpe]⟩

/-- Witness for C6: the code-less entry is dropped with the single
warning naming exactly the field "Code". -/
theorem c6_missing_required_witness :
    processEntry exchangeRates ce6 =
      some (none, [Warning.missingFields "Mystery" ["Code"]]) ∧
    validate_and_clean_data exchangeRates [ce6] =
      some ([], [Warning.missingFields "Mystery" ["Code"]]) :=
  c6_missing_required exchangeRates ce6 ⟨"Code", by decide, rfl⟩

/-!  ## Claim C8: taxonomy classification -/

/-- C8: an entry with all required fields present (flowing through
without a type error) is never silently dropped: its normalized
(form, code) pair is either found in the taxonomy — validity flag true
and the matched description attached — or the entry is still retained
in the validated output with validity flag false, an empty code
description, and exactly one warning naming the unmatched code (or the
unmatched form when the form itself is unknown). -/
theorem c8_classification (rates : List (String × ℚ)) (e : Entry) (f c cu : String) (a : ℚ)
    (h : GoodEntry e f c cu a) :
    ∃ e' ws, processEntry rates e = some (some e', ws) ∧
      validate_and_clean_data rates [e] = some ([e'], ws) ∧
      (∀ d, lookupTaxCode (pyStrip f) (normalize_code c) = some d →
        eget e' "Valid Code" = some (.b true) ∧
        eget e' "Code Description" = some (.s d)) ∧
      (lookupTaxCode (pyStrip f) (normalize_code c) = none →
        eget e' "Valid Code" = some (.b false) ∧
        eget e' "Code Description" = some (.s "") ∧
        ws.count (if (alookup taxCodes (pyStrip f)).isSome = true
            then Warning.unknownCode (normalize_code c) (pyStrip f) (descOf e)
            else Warning.unknownForm (pyStrip f) (descOf e)) = 1) := by
  obtain ⟨e', ws, hpe, hvac, _, _, _, h4, h5, _, _⟩ := processEntry_good rates e f c cu a h
  exact ⟨e', ws, hpe, hvac, h4, h5⟩

theorem ce8_good : GoodEntry ce8 "2042" "9zz" "EUR" 200 :=
  ⟨by decide, rfl, rfl, rfl, Or.inl rfl, by decide, by decide⟩

/-- Witness for C8: the unknown code 9ZZ is retained, flagged invalid
with empty description and exactly one unknown-code warning. -/
theorem c8_classification_witness :
    ∃ e' ws, processEntry exchangeRates ce8 = some (some e', ws) ∧
      validate_and_clean_data exchangeRates [ce8] = some ([e'], ws) ∧
      eget e' "Valid Code" = some (.b false) ∧
      eget e' "Code Description" = some (.s "") ∧
      ws.count (Warning.unknownCode "9ZZ" "2042" "Oddity") = 1 := by
  obtain ⟨e', ws, hpe, hvac, _, h5⟩ :=
    c8_classification exchangeRates ce8 "2042" "9zz" "EUR" 200 ce8_good
  obtain ⟨hvc, hcd, hcount⟩ := h5 (by decide)
  exact ⟨e', ws, hpe, hvac, hvc, hcd, hcount⟩

/-!  ## Claim C10: a zero rate behaves as an unknown currency -/

/-- C10: when the uppercased source currency is present in the rate
table with a rate of exactly 0, the validator behaves exactly as if
the currency were absent: the whole loop body computes the same result
as with the currency removed from the table, the EUR amount is set 1:1,
and the unknown-currency warning is emitted (the zero rate is never
multiplied through). -/
theorem c10_zero_rate (rates : List (String × ℚ)) (e : Entry) (f c cu : String) (a : ℚ)
    (h : GoodEntry e f c cu a) (hcur : pyUpper cu ≠ "EUR")
    (hr : alookup rates (pyUpper cu) = some 0) :
    processEntry rates e = processEntry (rates.filter (fun p => p.1 ≠ pyUpper cu)) e ∧
    ∃ e' ws, processEntry rates e = some (some e', ws) ∧
      eget e' "Amount (€)" = some (.n a) ∧
      Warning.unknownCurrency (pyUpper cu) (descOf e) ∈ ws := by
  constructor
  · exact processEntry_rates_congr rates _ e (stepEur_congr_of_zero rates (pyUpper cu) hr)
  · obtain ⟨e', ws, hpe, _, _, _, h3, _, _, _, _⟩ := processEntry_good rates e f c cu a h
    obtain ⟨hv, hm⟩ := h3 hcur (Or.inr hr)
    exact ⟨e', ws, hpe, hv, hm⟩

theorem ce10_good : GoodEntry ce10 "2047" "1AF" "xts" 5 :=
  ⟨by decide, rfl, rfl, rfl, Or.inl rfl, by decide, by decide⟩

/-- Witness for C10 with the table `[("XTS", 0)]`: the run equals the
run with the empty table, the amount passes through 1:1, and the
unknown-currency warning is present. -/
theorem c10_zero_rate_witness :
    processEntry [("XTS", 0)] ce10 =
      processEntry ([("XTS", 0)].filter (fun p => p.1 ≠ pyUpper "xts")) ce10 ∧
    ∃ e' ws, processEntry [("XTS", 0)] ce10 = some (some e', ws) ∧
      eget e' "Amount (€)" = some (.n 5) ∧
      Warning.unknownCurrency "XTS" "Testfund" ∈ ws :=
  c10_zero_rate [("XTS", 0)] ce10 "2047" "1AF" "xts" 5 ce10_good (by decide) rfl
